import Mathlib

/-!
Verification of the SpendWise expense policy evaluation and status-transition
engine against its natural-language specification.

The development shallowly embeds the decision logic of the application:

* the server's expense submission endpoint (POST /api/expenses in server.js),
  which looks up the category policy, computes weekly and monthly spend
  windows, aggregates prior spend and decides approved/pending;
* the client-side fraud heuristic (detectFraud in src/utils/ai.ts) and the
  client submission pipeline (addExpense in the expense context provider,
  handleSubmit/validateForm in the add-expense form);
* the currency converter (convertCurrency in src/utils/currency.ts) with its
  backend call, refresh and hard-coded fallback table;
* the expense-update, policy-update and user-expense-list endpoints of
  server.js.

Modelling conventions: JavaScript numbers are modelled as rationals;
JavaScript Date values are modelled at calendar-day granularity by a civil
date structure together with its epoch-day number (the code manipulates
dates through getDay/setDate/setHours and compares them chronologically;
day granularity captures the 00:00:00.000 / 23:59:59.999 window endpoints,
with the host clock assumed aligned to UTC).  Fallible external calls
(the backend conversion request, the exchange-rate refresh) are passed in
as Option-valued parameters.  All definitions are executable.
-/

namespace Spendwise

/-- The four supported currency codes. -/
inductive Currency
  | USD
  | EUR
  | GBP
  | INR
deriving DecidableEq

/-- The four expense lifecycle statuses. -/
inductive Status
  | pending
  | approved
  | rejected
  | flagged
deriving DecidableEq

/-- Caller roles used by the role-gated endpoints. -/
inductive Role
  | employee
  | manager
deriving DecidableEq

/-! ## Calendar arithmetic (model of the JavaScript Date operations used) -/

/-- Gregorian leap-year test, as used by JavaScript Date. -/
def isLeapYear (y : Int) : Bool :=
  y % 4 == 0 && (y % 100 != 0 || y % 400 == 0)

/-- Number of days in month m (1-12) of year y. -/
def monthLength (y : Int) (m : Nat) : Nat :=
  if m = 2 then (if isLeapYear y then 29 else 28)
  else if m = 4 ∨ m = 6 ∨ m = 9 ∨ m = 11 then 30
  else if m = 0 then 0
  else 31

/-- Days in the months of year y strictly before month m. -/
def daysBeforeMonth (y : Int) : Nat → Nat
  | 0 => 0
  | m + 1 => daysBeforeMonth y m + monthLength y m

/-- Leap years among years 1 .. y-1 (proleptic Gregorian, y ≥ 1). -/
def leapCount (y : Int) : Int :=
  (y - 1) / 4 - (y - 1) / 100 + (y - 1) / 400

/-- A calendar date.  `day` is an Int so that the JavaScript rollover
forms such as day 0 of the next month (new Date(y, m+1, 0)) can be
written directly. -/
structure CivilDate where
  year : Int
  month : Nat
  day : Int
deriving DecidableEq

/-- A date is valid when its components name an actual calendar day. -/
def CivilDate.valid (d : CivilDate) : Prop :=
  1 ≤ d.year ∧ 1 ≤ d.month ∧ d.month ≤ 12 ∧ 1 ≤ d.day ∧ d.day ≤ (monthLength d.year d.month : Int)

instance (d : CivilDate) : Decidable d.valid := by
  unfold CivilDate.valid
  infer_instance

/-- Days elapsed since 1970-01-01 (the JavaScript epoch); 1970-01-01 maps
to 0, which is a Thursday. -/
def toDays (d : CivilDate) : Int :=
  365 * (d.year - 1) + leapCount d.year + (daysBeforeMonth d.year d.month : Int) + d.day - 719163

/-- JavaScript getDay: 0 = Sunday .. 6 = Saturday, of an epoch-day number. -/
def jsDay (n : Int) : Int := (n + 4) % 7

/-- The weekly aggregation window of the date's week, as computed by the
submission endpoint: go back getDay() days to Sunday 00:00:00, then six
days forward to Saturday 23:59:59.999 (server.js lines 616-625), at day
granularity. -/
def weekWindow (d : CivilDate) : Int × Int :=
  let n := toDays d
  let s := n - jsDay n
  (s, s + 6)

/-- The monthly aggregation window, as computed by the submission endpoint:
new Date(y, m, 1) through new Date(y, m + 1, 0, 23:59:59) — day 0 of the
next month, which JavaScript rolls over to the last day of month m
(server.js lines 643-644).  Months here are 1-indexed, so the rollover at
December moves to day 0 of January of the next year. -/
def monthWindow (d : CivilDate) : Int × Int :=
  (toDays ⟨d.year, d.month, 1⟩,
   if d.month = 12 then toDays ⟨d.year + 1, 1, 0⟩ else toDays ⟨d.year, d.month + 1, 0⟩)

/-! ## Data model -/

/-- A persisted expense row (expenses table).  The free-text notes column
is not modelled; decision notes are modelled structurally below. -/
structure StoredExpense where
  id : String
  userId : String
  amount : ℚ
  currency : Currency
  date : CivilDate
  category : String
  description : String
  status : Status
deriving DecidableEq

/-- A newly submitted expense, before the server assigns its status. -/
structure NewExpense where
  id : String
  userId : String
  amount : ℚ
  currency : Currency
  date : CivilDate
  category : String
  description : String
deriving DecidableEq

/-- A per-category expense policy row (policies table). -/
structure Policy where
  category : String
  maxAmount : Option ℚ
  dailyLimit : Option ℚ
  weeklyLimit : Option ℚ
  monthlyLimit : Option ℚ
  description : String
  currency : Currency
deriving DecidableEq

/-! ## Spend aggregation (the SQL SUM queries of the submission endpoint) -/

/-- The WHERE clause of the aggregation queries: userId, category and
currency equal those of the submitted expense and the date lies in the
closed window (server.js lines 627-632 and 646-651).  The row's status is
not part of the filter. -/
def matchesQuery (uid cat : String) (cur : Currency) (lo hi : Int) (e : StoredExpense) : Bool :=
  e.userId == uid && e.category == cat && e.currency == cur &&
    decide (lo ≤ toDays e.date) && decide (toDays e.date ≤ hi)

/-- SELECT SUM(amount) over the matching rows; the SQL NULL result of an
empty selection is coalesced to 0 by the endpoint (totalAmount || 0). -/
def sumPriorExpenses (store : List StoredExpense) (uid cat : String) (cur : Currency) (lo hi : Int) : ℚ :=
  ((store.filter (matchesQuery uid cat cur lo hi)).map (fun e => e.amount)).sum

/-- The weekly running total compared against the weekly limit:
prior spend in the week window plus the new expense's amount. -/
def weeklyTotalOf (store : List StoredExpense) (e : NewExpense) : ℚ :=
  sumPriorExpenses store e.userId e.category e.currency (weekWindow e.date).1 (weekWindow e.date).2 + e.amount

/-- The monthly running total compared against the monthly limit. -/
def monthlyTotalOf (store : List StoredExpense) (e : NewExpense) : ℚ :=
  sumPriorExpenses store e.userId e.category e.currency (monthWindow e.date).1 (monthWindow e.date).2 + e.amount

/-! ## Policy decision (server.js POST /api/expenses, lines 603-683) -/

/-- The limit test of the endpoint: `policy.weeklyLimit && total > policy.weeklyLimit`.
A missing (NULL) limit is falsy, and — by JavaScript truthiness — so is a
configured limit equal to 0; otherwise the total is compared strictly
against the limit. -/
def limitExceeded (lim : Option ℚ) (total : ℚ) : Bool :=
  match lim with
  | none => false
  | some l => if l = 0 then false else decide (l < total)

/-- The structured content of the limit message interpolated into
expense.notes: which limit was exceeded, its configured value, the policy
currency and the running total. -/
inductive LimitNote
  | weekly (lim : ℚ) (cur : Currency) (total : ℚ)
  | monthly (lim : ℚ) (cur : Currency) (total : ℚ)
deriving DecidableEq

/-- The decision computed for a submitted expense: the status the endpoint
assigns, plus the limit note it appends to the notes field, if any. -/
structure Decision where
  status : Status
  note : Option LimitNote
deriving DecidableEq

/-- The decision logic of POST /api/expenses: look up the category policy
(pending if absent), compute weekly and monthly totals over the windows of
the expense's date, test both limits, auto-approve when neither trips, else
pending with a message for the weekly limit if it tripped, otherwise for
the monthly limit. -/
def serverDecide (getPolicy : String → Option Policy) (store : List StoredExpense) (e : NewExpense) : Decision :=
  match getPolicy e.category with
  | none => ⟨Status.pending, none⟩
  | some policy =>
    let weeklyTotal := weeklyTotalOf store e
    let monthlyTotal := monthlyTotalOf store e
    let withinWeeklyLimit := !limitExceeded policy.weeklyLimit weeklyTotal
    let withinMonthlyLimit := !limitExceeded policy.monthlyLimit monthlyTotal
    if withinWeeklyLimit && withinMonthlyLimit then ⟨Status.approved, none⟩
    else if !withinWeeklyLimit then
      ⟨Status.pending, some (LimitNote.weekly (policy.weeklyLimit.getD 0) policy.currency weeklyTotal)⟩
    else
      ⟨Status.pending, some (LimitNote.monthly (policy.monthlyLimit.getD 0) policy.currency monthlyTotal)⟩

/-! ## Fraud heuristic (detectFraud in src/utils/ai.ts) -/

/-- The static industry benchmark table (averageMonthly per category). -/
def industryBenchmark (c : String) : Option ℚ :=
  if c = "Office Supplies" then some 350
  else if c = "Food & Entertainment" then some 800
  else if c = "Travelling" then some 1500
  else if c = "Accommodation" then some 2000
  else if c = "Client & Project Expenses" then some 3000
  else if c = "Subscriptions" then some 700
  else none

/-- A reason collected by the fraud heuristic. -/
inductive FraudReason
  | amountAboveBenchmark (category : String)
  | weekendSubmission
  | futureDated
  | suspiciousKeyword (kw : String)
deriving DecidableEq

/-- ASCII lower-casing of a character, modelling toLowerCase(). -/
def lowerChar (c : Char) : Char :=
  if 65 ≤ c.toNat ∧ c.toNat ≤ 90 then Char.ofNat (c.toNat + 32) else c

/-- The character list of a string after lower-casing. -/
def lowerData (s : String) : List Char := s.data.map lowerChar

/-- Substring test on character lists, modelling String.includes. -/
def containsSub (needle : List Char) : List Char → Bool
  | [] => needle.isEmpty
  | c :: rest => needle.isPrefixOf (c :: rest) || containsSub needle rest

/-- The fixed suspicious keyword list, in source order. -/
def suspiciousKeywords : List String :=
  ["gift", "personal", "cash", "advance", "reimbursement"]

/-- First suspicious keyword contained in the lower-cased description
(the source loop breaks at the first match). -/
def firstKeywordIn (desc : String) : Option String :=
  suspiciousKeywords.find? (fun kw => containsSub kw.data (lowerData desc))

/-- detectFraud: collect reasons from the four independent rules —
amount above three times the category benchmark, weekend date, date
strictly after today, and a suspicious description keyword (first match
only).  isFraud is true exactly when some reason was collected. -/
def detectFraud (today : Int) (e : NewExpense) : Bool × List FraudReason :=
  let benchReasons :=
    match industryBenchmark e.category with
    | some b => if 3 * b < e.amount then [FraudReason.amountAboveBenchmark e.category] else []
    | none => []
  let n := toDays e.date
  let weekendReasons := if jsDay n = 0 ∨ jsDay n = 6 then [FraudReason.weekendSubmission] else []
  let futureReasons := if today < n then [FraudReason.futureDated] else []
  let keywordReasons :=
    match firstKeywordIn e.description with
    | some kw => [FraudReason.suspiciousKeyword kw]
    | none => []
  let reasons := benchReasons ++ weekendReasons ++ futureReasons ++ keywordReasons
  (!reasons.isEmpty, reasons)

/-! ## Submission pipeline (client addExpense + server POST /api/expenses)

The client runs detectFraud, marks the submission 'flagged' when fraud was
detected (deleting the status field otherwise), and posts it.  The server's
endpoint then assigns expense.status unconditionally in both of its
branches — 'pending' when no policy exists, else the outcome of the limit
checks — before the INSERT, so the client-sent 'flagged' never reaches the
database.  The client reports `isFraud ? 'flagged' : result.status` back to
the caller (ExpenseContext addExpense, lines 68-125). -/

/-- Outcome of a full submission: the fraud verdict, what the server
persists, and what the client-side addExpense returns to the UI. -/
structure SubmissionOutcome where
  isFraud : Bool
  persistedStatus : Status
  persistedNote : Option LimitNote
  returnedStatus : Status
deriving DecidableEq

/-- The composite submission pipeline. -/
def addExpensePipeline (getPolicy : String → Option Policy) (store : List StoredExpense)
    (today : Int) (e : NewExpense) : SubmissionOutcome :=
  let fraud := detectFraud today e
  let d := serverDecide getPolicy store e
  { isFraud := fraud.1
    persistedStatus := d.status
    persistedNote := d.note
    returnedStatus := if fraud.1 then Status.flagged else d.status }

/-- The six default category policies seeded by the server at first run. -/
def seededPolicies (c : String) : Option Policy :=
  if c = "Office Supplies" then
    some ⟨"Office Supplies", none, none, some 2500, some 10000, "Items for office use including stationery, small equipment, etc.", Currency.INR⟩
  else if c = "Food & Entertainment" then
    some ⟨"Food & Entertainment", none, none, some 1250, some 5000, "Meals, client entertainment, and team events.", Currency.INR⟩
  else if c = "Travelling" then
    some ⟨"Travelling", none, none, some 2500, some 10000, "Transportation costs including airfare, train, taxi, etc.", Currency.INR⟩
  else if c = "Accommodation" then
    some ⟨"Accommodation", none, none, some 1250, some 5000, "Hotel and lodging expenses while on business trips.", Currency.INR⟩
  else if c = "Client & Project Expenses" then
    some ⟨"Client & Project Expenses", none, none, some 25000, some 100000, "Expenses directly related to client projects.", Currency.INR⟩
  else if c = "Subscriptions" then
    some ⟨"Subscriptions", none, none, some 12500, some 50000, "Software, services, and publication subscriptions.", Currency.INR⟩
  else none

/-! ## Currency converter (src/utils/currency.ts) -/

/-- The INR-base rates the client reads from the backend
(/api/exchange-rates): data.rates['INR'][c], each possibly absent. -/
structure BackendRates where
  usd : Option ℚ
  eur : Option ℚ
  gbp : Option ℚ
deriving DecidableEq

/-- JavaScript `x || d` on an optional number: absent and 0 both fall back
to the default. -/
def jsNumOr (x : Option ℚ) (dflt : ℚ) : ℚ :=
  match x with
  | none => dflt
  | some v => if v = 0 then dflt else v

/-- fetchCurrencyRates: on a successful backend read, each rate defaults
to 1 when missing and INR is pinned to 1; when the read fails, the
hard-coded fallback table USD 0.012, EUR 0.011, GBP 0.0094, INR 1 is
returned instead of raising. -/
def fetchedRateTable (api : Option BackendRates) : Currency → ℚ :=
  match api with
  | some d => fun c =>
    match c with
    | Currency.USD => jsNumOr d.usd 1
    | Currency.EUR => jsNumOr d.eur 1
    | Currency.GBP => jsNumOr d.gbp 1
    | Currency.INR => 1
  | none => fun c =>
    match c with
    | Currency.USD => 12 / 1000
    | Currency.EUR => 11 / 1000
    | Currency.GBP => 94 / 10000
    | Currency.INR => 1

/-- convertCurrency: identical currencies return the amount unchanged;
otherwise the backend conversion service is used when it answers
(backendResult = some r models a successful POST /api/convert-currency,
whose response already contains the converted amount); when that call
fails the converter bridges through INR with the rates from
fetchCurrencyRates. -/
def convertCurrency (backendResult : Option ℚ) (api : Option BackendRates)
    (amount : ℚ) (fromC toC : Currency) : ℚ :=
  if fromC = toC then amount
  else
    match backendResult with
    | some result => result
    | none =>
      let rates := fetchedRateTable api
      if fromC ≠ Currency.INR ∧ toC ≠ Currency.INR then (amount / rates fromC) * rates toC
      else if fromC = Currency.INR then amount * rates toC
      else amount / rates fromC

/-! ## Add-expense form validation (validateForm/handleSubmit) -/

/-- The form fields relevant to validation. -/
structure FormInput where
  amount : ℚ
  date : Option CivilDate
  category : String
  description : String
deriving DecidableEq

/-- The error object produced by validateForm; policyWarning is kept
separate because handleSubmit does not treat it as blocking. -/
structure FormErrors where
  amountError : Bool
  dateError : Bool
  descriptionError : Bool
  policyWarning : Bool
deriving DecidableEq

/-- validateExpenseAgainstPolicy (ExpenseContext): valid when no policy is
configured for the category, else when the amount is at most
`policy.monthlyLimit || 0`. -/
def validateExpenseAgainstPolicy (policies : List Policy) (amount : ℚ) (cat : String) : Bool :=
  match policies.find? (fun p => p.category == cat) with
  | none => true
  | some p => if amount ≤ jsNumOr p.monthlyLimit 0 then true else false

/-- validateForm of the add-expense form: an amount error when
`!amount || amount <= 0`; a date error when the date is missing or
strictly in the future; a description error when the trimmed description
is shorter than 5 characters; a non-blocking policy warning. -/
def validateForm (policies : List Policy) (today : Int) (f : FormInput) : FormErrors :=
  { amountError := decide (f.amount = 0) || decide (f.amount ≤ 0)
    dateError :=
      match f.date with
      | none => true
      | some d => decide (today < toDays d)
    descriptionError := decide (f.description.trim.length < 5)
    policyWarning := !validateExpenseAgainstPolicy policies f.amount f.category }

/-- handleSubmit blocks on every error except policyWarning. -/
def hasBlockingErrors (errs : FormErrors) : Bool :=
  errs.amountError || errs.dateError || errs.descriptionError

/-- The submission path of the form: validate, return without submitting
when a blocking error exists (nothing is sent to the server, so no policy
decision is computed and nothing is persisted); otherwise run the
submission pipeline and persist the row with the server-assigned status.
The result is the new expense store together with the submission outcome,
none when the form blocked the submission. -/
def handleSubmit (policies : List Policy) (getPolicy : String → Option Policy)
    (store : List StoredExpense) (today : Int) (f : FormInput)
    (uid : String) (cur : Currency) : List StoredExpense × Option SubmissionOutcome :=
  let errs := validateForm policies today f
  if hasBlockingErrors errs then (store, none)
  else
    match f.date with
    | none => (store, none)
    | some d =>
      let e : NewExpense :=
        { id := "", userId := uid, amount := f.amount, currency := cur,
          date := d, category := f.category, description := f.description }
      let out := addExpensePipeline getPolicy store today e
      (store ++ [{ id := e.id, userId := e.userId, amount := e.amount, currency := e.currency,
                   date := e.date, category := e.category, description := e.description,
                   status := out.persistedStatus }], some out)

/-- The required-field guard of POST /api/expenses (server.js lines
592-596): every field must be truthy; for the amount this rejects 0 but
lets negative amounts through. -/
def serverRequiredFieldsOk (e : NewExpense) : Bool :=
  !e.id.isEmpty && !e.userId.isEmpty && !decide (e.amount = 0) &&
    !e.category.isEmpty && !e.description.isEmpty

/-! ## Expense update, policy update and listing endpoints (server.js) -/

/-- The body of PUT /api/expenses/:id together with the role of the actor
who issued it.  The endpoint never reads the role. -/
structure ExpenseUpdate where
  actorRole : Role
  amount : ℚ
  currency : Currency
  date : CivilDate
  category : String
  description : String
  status : Status
deriving DecidableEq

/-- The UPDATE statement of PUT /api/expenses/:id applied to one row
(amount, currency, date, category, description, status are overwritten;
id and userId are untouched). -/
def applyExpenseUpdate (u : ExpenseUpdate) (e : StoredExpense) : StoredExpense :=
  { e with amount := u.amount, currency := u.currency, date := u.date,
           category := u.category, description := u.description, status := u.status }

/-- PUT /api/expenses/:id: overwrite every row whose id matches and answer
success.  No role or authorization check appears in the handler
(server.js lines 779-813). -/
def updateExpenseEndpoint (store : List StoredExpense) (id : String) (u : ExpenseUpdate) :
    List StoredExpense × Bool :=
  (store.map (fun e => if e.id == id then applyExpenseUpdate u e else e), true)

/-- The body of PUT /api/policies/:category with the actor's role; again
the handler never reads the role. -/
structure PolicyUpdate where
  actorRole : Role
  maxAmount : Option ℚ
  dailyLimit : Option ℚ
  weeklyLimit : Option ℚ
  monthlyLimit : Option ℚ
  description : String
  currency : Currency
deriving DecidableEq

/-- The UPDATE statement of PUT /api/policies/:category applied to one row. -/
def applyPolicyUpdate (u : PolicyUpdate) (p : Policy) : Policy :=
  { p with maxAmount := u.maxAmount, dailyLimit := u.dailyLimit,
           weeklyLimit := u.weeklyLimit, monthlyLimit := u.monthlyLimit,
           description := u.description, currency := u.currency }

/-- PUT /api/policies/:category: overwrite the matching row, answer
success, no role check (server.js lines 841-871). -/
def updatePolicyEndpoint (ps : List Policy) (cat : String) (u : PolicyUpdate) :
    List Policy × Bool :=
  (ps.map (fun p => if p.category == cat then applyPolicyUpdate u p else p), true)

/-- GET /api/expenses/user/:userId: managers receive every expense of the
user; employees receive the rows satisfying the SQL condition
status = 'approved' OR status = 'rejected' OR
(status = 'pending' AND NOT (status = 'flagged'))
(server.js lines 738-762). -/
def getUserExpensesEndpoint (store : List StoredExpense) (uid : String) (role : Role) :
    List StoredExpense :=
  match role with
  | Role.manager => store.filter (fun e => e.userId == uid)
  | Role.employee =>
      store.filter (fun e =>
        e.userId == uid &&
          (e.status == Status.approved || e.status == Status.rejected ||
            (e.status == Status.pending && !(e.status == Status.flagged))))

/-! ## Spec-side definitions used for comparison with the code -/

/-- Spec-side limit predicate of the amended claim C2: a check passes when
the limit is unset, when it is 0 (JavaScript truthiness skips it), or when
the total is at most the limit. -/
def withinAmended (lim : Option ℚ) (total : ℚ) : Prop :=
  ∀ l, lim = some l → l ≠ 0 → total ≤ l

/-- The status predicted by claim C2 as written: approved exactly when
every configured limit is respected, an unset limit being skipped. -/
def claimStatus (p : Policy) (wTot mTot : ℚ) : Status :=
  if ((match p.weeklyLimit with
       | none => true
       | some l => decide (wTot ≤ l)) &&
      (match p.monthlyLimit with
       | none => true
       | some l => decide (mTot ≤ l))) = true
  then Status.approved else Status.pending

/-! ## Concrete fixtures -/

/-- The seeded policy for the Travelling category. -/
def travellingPolicy : Policy :=
  ⟨"Travelling", none, none, some 2500, some 10000,
   "Transportation costs including airfare, train, taxi, etc.", Currency.INR⟩

/-- A Travelling policy whose weekly limit is the number 0. -/
def zeroLimitPolicy : Policy :=
  ⟨"Travelling", none, none, some 0, none, "zero weekly limit", Currency.INR⟩

/-- A policy table holding only the zero-weekly-limit Travelling policy. -/
def zeroLimitPolicies (c : String) : Option Policy :=
  if c = "Travelling" then some zeroLimitPolicy else none

/-- A small Travelling expense dated Monday 2025-03-03. -/
def smallTravelExpense : NewExpense :=
  { id := "e9", userId := "u1", amount := 5, currency := Currency.INR,
    date := ⟨2025, 3, 3⟩, category := "Travelling", description := "metro fare" }

/-- A Travelling expense of 3000 INR dated Monday 2025-03-03 (the
scenario with an empty history against the 2500 weekly limit). -/
def travelOverWeekly : NewExpense :=
  { id := "e3", userId := "u1", amount := 3000, currency := Currency.INR,
    date := ⟨2025, 3, 3⟩, category := "Travelling", description := "flight tickets" }

/-- A Travelling expense whose description contains the keyword cash,
dated Monday 2025-03-03, well within the policy limits. -/
def cashTravelExpense : NewExpense :=
  { id := "e2", userId := "u1", amount := 100, currency := Currency.INR,
    date := ⟨2025, 3, 3⟩, category := "Travelling", description := "cash taxi" }

/-- The epoch-day number of 2025-03-05, used as the submission day. -/
def marchFifth : Int := toDays ⟨2025, 3, 5⟩

/-- A persisted pending Travelling expense of user u1 dated 2025-03-03. -/
def pendingStored : StoredExpense :=
  { id := "e1", userId := "u1", amount := 50, currency := Currency.INR,
    date := ⟨2025, 3, 3⟩, category := "Travelling", description := "taxi fare",
    status := Status.pending }

/-- A persisted flagged expense of user u1. -/
def flaggedStored : StoredExpense :=
  { id := "e4", userId := "u1", amount := 70, currency := Currency.INR,
    date := ⟨2025, 3, 3⟩, category := "Travelling", description := "cash advance",
    status := Status.flagged }

/-- A persisted approved expense of user u1. -/
def approvedStored : StoredExpense :=
  { id := "e5", userId := "u1", amount := 20, currency := Currency.INR,
    date := ⟨2025, 3, 3⟩, category := "Travelling", description := "bus fare",
    status := Status.approved }

/-- An update request issued by an employee, turning an expense approved. -/
def employeeApprove : ExpenseUpdate :=
  { actorRole := Role.employee, amount := 50, currency := Currency.INR,
    date := ⟨2025, 3, 3⟩, category := "Travelling", description := "taxi fare",
    status := Status.approved }

/-- A form input with a negative amount. -/
def negativeForm : FormInput :=
  { amount := -5, date := some ⟨2025, 3, 3⟩, category := "Travelling",
    description := "taxi fare" }

/-! ## Helper lemmas -/

/-- The limit test fails exactly when the amended within-limit predicate
holds (unset limits and zero limits are skipped, otherwise the total must
be at most the limit). -/
theorem limitExceeded_eq_false_iff (lim : Option ℚ) (t : ℚ) :
    limitExceeded lim t = false ↔ withinAmended lim t := by
  unfold limitExceeded withinAmended
  cases lim with
  | none => simp
  | some l =>
    by_cases h0 : l = 0
    · subst h0
      simp
    · simp [h0, not_lt]

/-- One leap year is added at y + 1 exactly when y itself is leap. -/
theorem leapCount_succ (y : Int) :
    leapCount (y + 1) = leapCount y + (if isLeapYear y then 1 else 0) := by
  unfold leapCount isLeapYear
  simp only [Bool.and_eq_true, beq_iff_eq, Bool.or_eq_true, bne_iff_ne]
  split <;> omega

/-- January through November sum to 334 days, plus one in leap years. -/
theorem daysBeforeMonth_twelve (y : Int) :
    (daysBeforeMonth y 12 : Int) = 334 + (if isLeapYear y then 1 else 0) := by
  by_cases h : isLeapYear y = true <;>
    simp [daysBeforeMonth, monthLength, h]

/-! ## Claim theorems -/

/-- Claim C7: for every amount x and every currency C of the four
supported currencies, convert(x, C, C) returns x exactly, whatever the
state of the backend conversion service and the rate source. -/
theorem convert_same_currency_identity (backendResult : Option ℚ) (api : Option BackendRates)
    (x : ℚ) (c : Currency) :
    convertCurrency backendResult api x c c = x := by
  simp [convertCurrency]

/-- Counterexample to claim C6 as stated: with an empty cache and a failed
refresh, convert(100, USD, INR) does not return the original amount 100;
it returns 100 / 0.012 = 25000/3, bridged through the hard-coded fallback
rate table. -/
theorem convert_fallback_counterexample :
    convertCurrency none none 100 Currency.USD Currency.INR = 25000 / 3 ∧
    (25000 / 3 : ℚ) ≠ 100 := by
  constructor
  · simp only [convertCurrency, fetchedRateTable]
    rw [if_neg (by decide), if_neg (by decide), if_neg (by decide)]
    norm_num
  · norm_num

/-- Claim C6 (amended): when the backend conversion fails and the rate
refresh also fails, the converter never raises and always produces the
conversion bridged through INR computed from the hard-coded fallback
rates — amount × rate(INR→to) / rate(INR→from) — rather than the
original amount; the amount is returned unchanged only when the two
currencies coincide. -/
theorem convert_fallback_bridges_through_inr (amount : ℚ) (fromC toC : Currency) :
    convertCurrency none none amount fromC toC =
      amount * fetchedRateTable none toC / fetchedRateTable none fromC := by
  cases fromC <;> cases toC <;>
    simp [convertCurrency, fetchedRateTable] <;> ring

/-- Claim C3: when no policy is configured for the submitted expense's
category the decision is pending with no note; serverDecide is a total
function, so no exception can be raised. -/
theorem decide_no_policy_pending (getPolicy : String → Option Policy)
    (store : List StoredExpense) (e : NewExpense)
    (h : getPolicy e.category = none) :
    serverDecide getPolicy store e = ⟨Status.pending, none⟩ := by
  simp [serverDecide, h]

/-- Witness for C3: the empty policy table at a concrete expense. -/
theorem decide_no_policy_pending_witness :
    (fun _ : String => (none : Option Policy)) smallTravelExpense.category = none ∧
    serverDecide (fun _ => none) [] smallTravelExpense = ⟨Status.pending, none⟩ :=
  ⟨rfl, decide_no_policy_pending (fun _ => none) [] smallTravelExpense rfl⟩

/-- Claim C10: an employee-role query for a user's expenses returns no
flagged expense — every returned row is approved, rejected or pending —
while a manager-role query returns every row of that user, flagged rows
included. -/
theorem employee_list_excludes_flagged (store : List StoredExpense) (uid : String) :
    (∀ e ∈ getUserExpensesEndpoint store uid Role.employee,
        e.status ≠ Status.flagged ∧
          (e.status = Status.approved ∨ e.status = Status.rejected ∨ e.status = Status.pending)) ∧
    (∀ e ∈ store, e.userId = uid → e ∈ getUserExpensesEndpoint store uid Role.manager) := by
  constructor
  · intro e he
    simp only [getUserExpensesEndpoint, List.mem_filter] at he
    obtain ⟨-, hcond⟩ := he
    cases hs : e.status <;> simp [hs] at hcond ⊢
  · intro e he hu
    simp [getUserExpensesEndpoint, List.mem_filter, he, hu]

/-- Witness for C10: with a flagged and an approved expense of user u1 in
the store, the manager query returns the flagged row, and the approved row
returned to the employee is not flagged. -/
theorem employee_list_excludes_flagged_witness :
    flaggedStored ∈ getUserExpensesEndpoint [flaggedStored, approvedStored] "u1" Role.manager ∧
    approvedStored.status ≠ Status.flagged :=
  ⟨(employee_list_excludes_flagged [flaggedStored, approvedStored] "u1").2
      flaggedStored (by simp) rfl,
   ((employee_list_excludes_flagged [flaggedStored, approvedStored] "u1").1
      approvedStored (by simp [getUserExpensesEndpoint, flaggedStored, approvedStored])).1⟩

/-- Claim C4: for every valid date, the weekly window computed by the
submission endpoint starts on the Sunday of the week containing the date
(day index 0) and ends six days later on the Saturday (day index 6), with
the date inside; and the monthly window runs from the first through the
last calendar day of the date's month, with the date inside.  Day
granularity stands for the 00:00:00.000 and 23:59:59.999 endpoints set by
the code. -/
theorem aggregation_windows_correct (d : CivilDate) (h : d.valid) :
    jsDay (weekWindow d).1 = 0 ∧
    jsDay (weekWindow d).2 = 6 ∧
    (weekWindow d).2 = (weekWindow d).1 + 6 ∧
    (weekWindow d).1 ≤ toDays d ∧ toDays d ≤ (weekWindow d).2 ∧
    (monthWindow d).1 = toDays ⟨d.year, d.month, 1⟩ ∧
    (monthWindow d).2 = toDays ⟨d.year, d.month, (monthLength d.year d.month : Int)⟩ ∧
    (monthWindow d).1 ≤ toDays d ∧ toDays d ≤ (monthWindow d).2 := by
  obtain ⟨hy, hm1, hm2, hd1, hd2⟩ := h
  have hweek1 : jsDay (weekWindow d).1 = 0 := by
    simp only [weekWindow, jsDay]
    omega
  have hweek2 : (weekWindow d).2 = (weekWindow d).1 + 6 := rfl
  have hweek3 : jsDay (weekWindow d).2 = 6 := by
    simp only [weekWindow, jsDay]
    omega
  have hweek4 : (weekWindow d).1 ≤ toDays d ∧ toDays d ≤ (weekWindow d).2 := by
    simp only [weekWindow, jsDay]
    constructor <;> omega
  have hmonthEnd : (monthWindow d).2 = toDays ⟨d.year, d.month, (monthLength d.year d.month : Int)⟩ := by
    simp only [monthWindow]
    by_cases h12 : d.month = 12
    · rw [if_pos h12, h12]
      have hml : ((monthLength d.year 12 : Nat) : Int) = 31 := by simp [monthLength]
      have hjan : daysBeforeMonth (d.year + 1) 1 = 0 := by
        simp [daysBeforeMonth, monthLength]
      have h334 := daysBeforeMonth_twelve d.year
      have hlc := leapCount_succ d.year
      simp only [toDays, hjan, hml]
      by_cases hl : isLeapYear d.year = true <;> simp [hl] at h334 hlc <;> omega
    · rw [if_neg h12]
      have hsucc : daysBeforeMonth d.year (d.month + 1) =
          daysBeforeMonth d.year d.month + monthLength d.year d.month := rfl
      simp only [toDays, hsucc]
      push_cast
      omega
  have hmonth1 : (monthWindow d).1 ≤ toDays d := by
    simp only [monthWindow, toDays]
    omega
  have hmonth2 : toDays d ≤ (monthWindow d).2 := by
    rw [hmonthEnd]
    simp only [toDays]
    omega
  exact ⟨hweek1, hweek3, hweek2, hweek4.1, hweek4.2, rfl, hmonthEnd, hmonth1, hmonth2⟩

/-- Witness for C4 at the concrete date 2025-03-03. -/
theorem aggregation_windows_correct_witness :
    jsDay (weekWindow ⟨2025, 3, 3⟩).1 = 0 ∧
    jsDay (weekWindow ⟨2025, 3, 3⟩).2 = 6 ∧
    (weekWindow ⟨2025, 3, 3⟩).2 = (weekWindow ⟨2025, 3, 3⟩).1 + 6 ∧
    (weekWindow ⟨2025, 3, 3⟩).1 ≤ toDays ⟨2025, 3, 3⟩ ∧
    toDays ⟨2025, 3, 3⟩ ≤ (weekWindow ⟨2025, 3, 3⟩).2 ∧
    (monthWindow ⟨2025, 3, 3⟩).1 = toDays ⟨2025, 3, 1⟩ ∧
    (monthWindow ⟨2025, 3, 3⟩).2 = toDays ⟨2025, 3, (monthLength 2025 3 : Int)⟩ ∧
    (monthWindow ⟨2025, 3, 3⟩).1 ≤ toDays ⟨2025, 3, 3⟩ ∧
    toDays ⟨2025, 3, 3⟩ ≤ (monthWindow ⟨2025, 3, 3⟩).2 :=
  aggregation_windows_correct ⟨2025, 3, 3⟩ (by decide)

/-- Claim C5: the prior-spend aggregation returns 0 on an empty store and
whenever no row matches; a row matches exactly when its userId, category
and currency equal those of the query and its date lies inclusively in the
window — the row's status is not consulted, so a matching row of any
status (approved, pending, flagged or rejected alike) contributes its
amount; and the totals compared against the limits are the aggregate plus
the new expense's amount. -/
theorem aggregation_counts_every_status (store : List StoredExpense) (uid cat : String)
    (cur : Currency) (lo hi : Int) :
    (sumPriorExpenses [] uid cat cur lo hi = 0) ∧
    ((∀ e ∈ store, matchesQuery uid cat cur lo hi e = false) →
        sumPriorExpenses store uid cat cur lo hi = 0) ∧
    (∀ e : StoredExpense,
        matchesQuery uid cat cur lo hi e = true ↔
          (e.userId = uid ∧ e.category = cat ∧ e.currency = cur ∧
            lo ≤ toDays e.date ∧ toDays e.date ≤ hi)) ∧
    (∀ (e : StoredExpense) (s : Status) (rest : List StoredExpense),
        matchesQuery uid cat cur lo hi e = true →
          sumPriorExpenses ({ e with status := s } :: rest) uid cat cur lo hi =
            e.amount + sumPriorExpenses rest uid cat cur lo hi) ∧
    (∀ (ne : NewExpense) (st : List StoredExpense),
        weeklyTotalOf st ne =
          sumPriorExpenses st ne.userId ne.category ne.currency
            (weekWindow ne.date).1 (weekWindow ne.date).2 + ne.amount ∧
        monthlyTotalOf st ne =
          sumPriorExpenses st ne.userId ne.category ne.currency
            (monthWindow ne.date).1 (monthWindow ne.date).2 + ne.amount) := by
  refine ⟨rfl, ?_, ?_, ?_, fun ne st => ⟨rfl, rfl⟩⟩
  · intro hnone
    have hfil : store.filter (matchesQuery uid cat cur lo hi) = [] := by
      rw [List.filter_eq_nil_iff]
      intro a ha
      simp [hnone a ha]
    simp [sumPriorExpenses, hfil]
  · intro e
    simp [matchesQuery, and_assoc]
  · intro e s rest hmatch
    have hmatch2 : matchesQuery uid cat cur lo hi { e with status := s } = true := hmatch
    simp [sumPriorExpenses, List.filter_cons, hmatch2]

/-- Witness for C5: a rejected copy of a matching stored expense still
contributes its amount to the weekly aggregate. -/
theorem aggregation_counts_every_status_witness :
    sumPriorExpenses [{ pendingStored with status := Status.rejected }]
        "u1" "Travelling" Currency.INR 20149 20155 =
      pendingStored.amount +
        sumPriorExpenses [] "u1" "Travelling" Currency.INR 20149 20155 :=
  (aggregation_counts_every_status [] "u1" "Travelling" Currency.INR 20149 20155).2.2.2.1
    pendingStored Status.rejected [] (by decide)

/-- Claim C2 (amended): for a submitted expense whose category has a
configured policy, the decision is approved exactly when both the weekly
and the monthly total (prior matching spend plus the new amount) pass
their checks, where a check whose limit is unset — or, by JavaScript
truthiness, equal to 0 — is skipped; otherwise the decision is pending
with a note carrying whichever limit was exceeded first (weekly checked
before monthly), its configured value, the policy currency and the
numeric total.  When the fraud heuristic finds nothing, the pipeline
persists and returns exactly this decision's status. -/
theorem policy_decision_amended (getPolicy : String → Option Policy)
    (store : List StoredExpense) (e : NewExpense) (p : Policy)
    (h : getPolicy e.category = some p) :
    ((serverDecide getPolicy store e).status = Status.approved ↔
      (withinAmended p.weeklyLimit (weeklyTotalOf store e) ∧
        withinAmended p.monthlyLimit (monthlyTotalOf store e))) ∧
    (∀ l, p.weeklyLimit = some l → l ≠ 0 → l < weeklyTotalOf store e →
        serverDecide getPolicy store e =
          ⟨Status.pending, some (LimitNote.weekly l p.currency (weeklyTotalOf store e))⟩) ∧
    (withinAmended p.weeklyLimit (weeklyTotalOf store e) →
      ∀ l, p.monthlyLimit = some l → l ≠ 0 → l < monthlyTotalOf store e →
        serverDecide getPolicy store e =
          ⟨Status.pending, some (LimitNote.monthly l p.currency (monthlyTotalOf store e))⟩) ∧
    (∀ today : Int, (detectFraud today e).1 = false →
        (addExpensePipeline getPolicy store today e).persistedStatus =
            (serverDecide getPolicy store e).status ∧
          (addExpensePipeline getPolicy store today e).returnedStatus =
            (serverDecide getPolicy store e).status) := by
  refine ⟨?_, ?_, ?_, ?_⟩
  · cases hw : limitExceeded p.weeklyLimit (weeklyTotalOf store e) with
    | false =>
      cases hm : limitExceeded p.monthlyLimit (monthlyTotalOf store e) with
      | false =>
        simp only [serverDecide, h, hw, hm]
        simp [← limitExceeded_eq_false_iff, hw, hm]
      | true =>
        simp only [serverDecide, h, hw, hm]
        constructor
        · intro habs
          simp at habs
        · rintro ⟨-, hmon⟩
          rw [← limitExceeded_eq_false_iff] at hmon
          rw [hm] at hmon
          cases hmon
    | true =>
      simp only [serverDecide, h, hw]
      constructor
      · intro habs
        simp at habs
      · rintro ⟨hweek, -⟩
        rw [← limitExceeded_eq_false_iff] at hweek
        rw [hw] at hweek
        cases hweek
  · intro l hl hl0 hlt
    have hw : limitExceeded (some l) (weeklyTotalOf store e) = true := by
      simp [limitExceeded, hl0, hlt]
    simp [serverDecide, h, hl, hw]
  · intro hweek l hl hl0 hlt
    have hw : limitExceeded p.weeklyLimit (weeklyTotalOf store e) = false :=
      (limitExceeded_eq_false_iff _ _).mpr hweek
    have hm : limitExceeded (some l) (monthlyTotalOf store e) = true := by
      simp [limitExceeded, hl0, hlt]
    simp [serverDecide, h, hw, hl, hm]
  · intro today hnofraud
    constructor
    · rfl
    · simp [addExpensePipeline, hnofraud]

/-- Counterexample to claim C2 as stated: with a configured weekly limit
equal to 0 and a positive total, the claim predicts pending but the code
approves, because JavaScript truthiness makes a 0 limit skip its check. -/
theorem policy_decision_zero_limit_counterexample :
    (serverDecide zeroLimitPolicies [] smallTravelExpense).status = Status.approved ∧
    zeroLimitPolicy.weeklyLimit = some 0 ∧
    0 < weeklyTotalOf [] smallTravelExpense ∧
    claimStatus zeroLimitPolicy (weeklyTotalOf [] smallTravelExpense)
        (monthlyTotalOf [] smallTravelExpense) = Status.pending ∧
    Status.approved ≠ Status.pending := by
  have htot : weeklyTotalOf [] smallTravelExpense = 5 := by
    simp [weeklyTotalOf, sumPriorExpenses, smallTravelExpense]
  have hp : zeroLimitPolicies smallTravelExpense.category = some zeroLimitPolicy := by
    simp [zeroLimitPolicies, smallTravelExpense]
  refine ⟨?_, rfl, ?_, ?_, by simp⟩
  · simp [serverDecide, hp, zeroLimitPolicy, limitExceeded]
  · rw [htot]
    norm_num
  · rw [htot]
    simp only [claimStatus, zeroLimitPolicy]
    norm_num

/-- Witness for C2 (amended), the spec's first scenario: Travelling policy
with weekly limit 2500 INR, no prior expenses, new amount 3000 → pending
with a weekly-limit note citing the limit 2500 and the total 3000. -/
theorem policy_decision_amended_witness :
    serverDecide seededPolicies [] travelOverWeekly =
      ⟨Status.pending, some (LimitNote.weekly 2500 Currency.INR 3000)⟩ := by
  have htot : weeklyTotalOf [] travelOverWeekly = 3000 := by
    simp [weeklyTotalOf, sumPriorExpenses, travelOverWeekly]
  have h := (policy_decision_amended seededPolicies [] travelOverWeekly
      ⟨"Travelling", none, none, some 2500, some 10000,
        "Transportation costs including airfare, train, taxi, etc.", Currency.INR⟩
      (by simp [seededPolicies, travelOverWeekly])).2.1 2500 rfl (by norm_num)
      (by rw [htot]; norm_num)
  rw [h, htot]

/-- Demonstration for claim C1 (code bug): for the Travelling expense
with description containing the keyword cash — tripping the fraud
heuristic — and amount 100 INR, well within the seeded policy limits,
the client-side pipeline reports status flagged, but the server's policy
branch runs the limit checks anyway and unconditionally overwrites the
client-sent status before the INSERT: the persisted status is approved,
not flagged.  The code's own comments (ExpenseContext addExpense: mark
as flagged when fraud is detected; server.js line 682: set status if not
already set from client) say the flagged status should survive, so this
is a code defect, not a spec defect. -/
theorem fraud_flag_overwritten_by_server :
    (detectFraud marchFifth cashTravelExpense).1 = true ∧
    (addExpensePipeline seededPolicies [] marchFifth cashTravelExpense).returnedStatus =
      Status.flagged ∧
    (addExpensePipeline seededPolicies [] marchFifth cashTravelExpense).persistedStatus =
      Status.approved ∧
    Status.approved ≠ Status.flagged := by
  have hdays : toDays ⟨2025, 3, 3⟩ = 20150 := by decide
  have hmarch : marchFifth = 20152 := by decide
  have hkw : firstKeywordIn "cash taxi" = some "cash" := by decide
  have hfraud : (detectFraud marchFifth cashTravelExpense).1 = true := by
    simp only [detectFraud, cashTravelExpense, hdays, hmarch, hkw, industryBenchmark]
    norm_num
  have hpol : seededPolicies "Travelling" =
      some ⟨"Travelling", none, none, some 2500, some 10000,
        "Transportation costs including airfare, train, taxi, etc.", Currency.INR⟩ := by
    simp [seededPolicies]
  have hdec : serverDecide seededPolicies [] cashTravelExpense =
      ⟨Status.approved, none⟩ := by
    have hw : weeklyTotalOf [] cashTravelExpense = 100 := by
      simp [weeklyTotalOf, sumPriorExpenses, cashTravelExpense]
    have hm : monthlyTotalOf [] cashTravelExpense = 100 := by
      simp [monthlyTotalOf, sumPriorExpenses, cashTravelExpense]
    have hpol2 : seededPolicies cashTravelExpense.category =
        some ⟨"Travelling", none, none, some 2500, some 10000,
          "Transportation costs including airfare, train, taxi, etc.", Currency.INR⟩ := hpol
    simp only [serverDecide, hpol2, hw, hm]
    norm_num [limitExceeded]
  refine ⟨hfraud, ?_, ?_, by simp⟩
  · simp [addExpensePipeline, hfraud]
  · simp [addExpensePipeline, hdec]

/-- Claim C8: a form submission whose amount is 0 or negative is blocked
by validateForm before anything is sent: the store is unchanged and no
policy decision is computed.  Independently, the server's required-field
guard rejects a zero amount (it is falsy), though it alone would let a
negative amount through. -/
theorem nonpositive_amount_blocked (policies : List Policy)
    (getPolicy : String → Option Policy) (store : List StoredExpense) (today : Int)
    (f : FormInput) (uid : String) (cur : Currency) (h : f.amount ≤ 0) :
    handleSubmit policies getPolicy store today f uid cur = (store, none) ∧
    (∀ e : NewExpense, e.amount = 0 → serverRequiredFieldsOk e = false) := by
  constructor
  · have hblock : hasBlockingErrors (validateForm policies today f) = true := by
      simp [hasBlockingErrors, validateForm, h]
    simp [handleSubmit, hblock]
  · intro e he
    simp [serverRequiredFieldsOk, he]

/-- Witness for C8 at a concrete negative-amount form, and the server
guard at a concrete zero-amount expense. -/
theorem nonpositive_amount_blocked_witness :
    handleSubmit [] seededPolicies [] 20152 negativeForm "u1" Currency.INR = ([], none) ∧
    serverRequiredFieldsOk { smallTravelExpense with amount := 0 } = false :=
  ⟨(nonpositive_amount_blocked [] seededPolicies [] 20152 negativeForm "u1" Currency.INR
      (by norm_num [negativeForm])).1,
   (nonpositive_amount_blocked [] seededPolicies [] 20152 negativeForm "u1" Currency.INR
      (by norm_num [negativeForm])).2 { smallTravelExpense with amount := 0 } rfl⟩

/-- Counterexample to claim C9 as stated: an update request carrying the
employee role is not rejected — the endpoint answers success and the
stored pending expense is overwritten to approved. -/
theorem employee_update_succeeds_counterexample :
    employeeApprove.actorRole = Role.employee ∧
    (updateExpenseEndpoint [pendingStored] "e1" employeeApprove).2 = true ∧
    ((updateExpenseEndpoint [pendingStored] "e1" employeeApprove).1.map
        (fun e => e.status)) = [Status.approved] ∧
    pendingStored.status = Status.pending := by
  refine ⟨rfl, rfl, ?_, rfl⟩
  simp [updateExpenseEndpoint, applyExpenseUpdate, pendingStored, employeeApprove]

/-- Claim C9 (amended): the status-transition and policy-edit endpoints
enforce no authorization at all — the handlers never read the actor's
role, answer success for every caller, and overwrite every matching row,
for employees exactly as for managers; role gating exists only in the
client UI. -/
theorem role_not_checked_on_updates (store : List StoredExpense) (id : String)
    (u : ExpenseUpdate) (ps : List Policy) (cat : String) (v : PolicyUpdate)
    (r s : Role) :
    (updateExpenseEndpoint store id { u with actorRole := r } =
      updateExpenseEndpoint store id { u with actorRole := s }) ∧
    (updateExpenseEndpoint store id u).2 = true ∧
    (updatePolicyEndpoint ps cat { v with actorRole := r } =
      updatePolicyEndpoint ps cat { v with actorRole := s }) ∧
    (updatePolicyEndpoint ps cat v).2 = true ∧
    (∀ e ∈ store, e.id = id →
        applyExpenseUpdate u e ∈ (updateExpenseEndpoint store id u).1) ∧
    (∀ p ∈ ps, p.category = cat →
        applyPolicyUpdate v p ∈ (updatePolicyEndpoint ps cat v).1) := by
  refine ⟨?_, rfl, ?_, rfl, ?_, ?_⟩
  · simp [updateExpenseEndpoint, applyExpenseUpdate]
  · simp [updatePolicyEndpoint, applyPolicyUpdate]
  · intro e he hid
    have : applyExpenseUpdate u e = (fun x => if x.id == id then applyExpenseUpdate u x else x) e := by
      simp [hid]
    rw [updateExpenseEndpoint]
    exact this ▸ List.mem_map_of_mem _ he
  · intro p hp hcat
    have : applyPolicyUpdate v p = (fun x => if x.category == cat then applyPolicyUpdate v x else x) p := by
      simp [hcat]
    rw [updatePolicyEndpoint]
    exact this ▸ List.mem_map_of_mem _ hp

/-- Witness for C9 (amended): the employee-issued update applies to the
concrete stored pending expense. -/
theorem role_not_checked_on_updates_witness :
    applyExpenseUpdate employeeApprove pendingStored ∈
      (updateExpenseEndpoint [pendingStored] "e1" employeeApprove).1 :=
  (role_not_checked_on_updates [pendingStored] "e1" employeeApprove [] "Travelling"
      ⟨Role.employee, none, none, some 2500, some 10000, "x", Currency.INR⟩
      Role.employee Role.manager).2.2.2.2.1 pendingStored (by simp) rfl

end Spendwise
